import Mathlib

/-!
Verification of the AI Investor Pitch Practice front end.

Shallow embedding of:
* `src/utils/apiRetry.ts` — the generic retry executor (`apiCallWithRetry`);
* `src/api/airopsSession.ts` — deck-processing client (`processAiropsDeck`);
* `src/api/retellSession.ts` — voice-session client (`createRetellSession`,
  `getCallTranscript`);
* `src/App.tsx` — the session state machine (`handleSubmitLink`,
  `handleCallEnded`, `resetApp`), the version documented in
  `app_architecture.md` (the one holding `apiCallMadeRef`);
* the backend relay (`server` file) — response normalization of
  `/api/process-deck` and transcript formatting of `/api/get-transcript`.

Asynchronous fetches are modelled by an explicit outcome parameter describing
what the underlying network operation did (threw, returned a non-2xx status,
timed out, or returned a parsed body).  JavaScript string truthiness is
modelled by `jsTruthy` (absent or empty string = falsy).
-/

namespace PitchApp

/-- A JavaScript thrown value: either an `Error` object carrying a message, or
any other thrown value, kept as its string rendering (`String(error)`). -/
inductive JSVal where
  | errObj (msg : String)
  | nonErr (str : String)
deriving DecidableEq, Repr

/-- Model of `error instanceof Error ? error : new Error(String(error))`
(line 31 of `apiRetry.ts`). -/
def normalizeToError : JSVal → JSVal
  | .errObj m => .errObj m
  | .nonErr s => .errObj s

/-- The retry loop of `apiCallWithRetry`: `attempt` is the 1-based attempt
counter, the second argument is the number of attempts still allowed, the
third is `lastError` (`none` = still uninitialized).  `op i` is the outcome
of the `i`-th invocation of the wrapped operation. -/
def retryAux {α : Type} (op : Nat → Except JSVal α) :
    Nat → Nat → Option JSVal → Except (Option JSVal) α
  | _attempt, 0, lastError => .error lastError
  | attempt, n + 1, _lastError =>
    match op attempt with
    | .ok v => .ok v
    | .error e => retryAux op (attempt + 1) n (some (normalizeToError e))

/-- Model of `apiCallWithRetry` from `src/utils/apiRetry.ts`: run `op` up to
`maxAttempts` times, returning the first success or throwing the last
(normalized) failure.  Backoff delays do not affect the value semantics and
are not modelled. -/
def apiCallWithRetry {α : Type} (op : Nat → Except JSVal α) (maxAttempts : Nat) :
    Except (Option JSVal) α :=
  retryAux op 1 maxAttempts none

/-- Number of invocations of the wrapped operation performed by the retry
loop, starting at attempt index `attempt` with `n` attempts allowed. -/
def retryCountAux {α : Type} (op : Nat → Except JSVal α) : Nat → Nat → Nat
  | _attempt, 0 => 0
  | attempt, n + 1 =>
    match op attempt with
    | .ok _ => 1
    | .error _ => 1 + retryCountAux op (attempt + 1) n

/-- Number of invocations of the wrapped operation that
`apiCallWithRetry op maxAttempts` performs. -/
def apiCallInvocations {α : Type} (op : Nat → Except JSVal α) (maxAttempts : Nat) : Nat :=
  retryCountAux op 1 maxAttempts

theorem retryCountAux_le {α : Type} (op : Nat → Except JSVal α) :
    ∀ (n attempt : Nat), retryCountAux op attempt n ≤ n := by
  intro n
  induction n with
  | zero => intro attempt; simp [retryCountAux]
  | succ k ih =>
    intro attempt
    unfold retryCountAux
    cases op attempt with
    | ok v => show 1 ≤ k + 1; omega
    | error e =>
      show 1 + retryCountAux op (attempt + 1) k ≤ k + 1
      have := ih (attempt + 1)
      omega

theorem retryAux_first_success {α : Type} (op : Nat → Except JSVal α) :
    ∀ (n attempt : Nat) (last : Option JSVal) (i : Nat) (v : α),
      attempt ≤ i → i < attempt + n → op i = .ok v →
      (∀ j, attempt ≤ j → j < i → ∃ e, op j = .error e) →
      retryAux op attempt n last = .ok v ∧ retryCountAux op attempt n = i + 1 - attempt := by
  intro n
  induction n with
  | zero => intro attempt last i v h1 h2 _ _; omega
  | succ k ih =>
    intro attempt last i v h1 h2 hok hfail
    by_cases hai : attempt = i
    · subst hai
      refine ⟨?_, ?_⟩
      · unfold retryAux; rw [hok]
      · unfold retryCountAux; rw [hok]; show 1 = attempt + 1 - attempt; omega
    · have hlt : attempt < i := lt_of_le_of_ne h1 hai
      obtain ⟨e, he⟩ := hfail attempt le_rfl hlt
      have hrec := ih (attempt + 1) (some (normalizeToError e)) i v (by omega) (by omega)
        hok (fun j hj1 hj2 => hfail j (by omega) hj2)
      refine ⟨?_, ?_⟩
      · unfold retryAux; rw [he]; exact hrec.1
      · unfold retryCountAux; rw [he]
        show 1 + retryCountAux op (attempt + 1) k = i + 1 - attempt
        rw [hrec.2]; omega

theorem retryAux_all_fail {α : Type} (op : Nat → Except JSVal α) :
    ∀ (n attempt : Nat) (last : Option JSVal) (e : JSVal),
      0 < n → op (attempt + n - 1) = .error e →
      (∀ j, attempt ≤ j → j < attempt + n → ∃ e0, op j = .error e0) →
      retryAux op attempt n last = .error (some (normalizeToError e)) ∧
        retryCountAux op attempt n = n := by
  intro n
  induction n with
  | zero => intro attempt last e h _ _; omega
  | succ k ih =>
    intro attempt last e _ hlast hall
    obtain ⟨e0, he0⟩ := hall attempt le_rfl (by omega)
    by_cases hk : k = 0
    · subst hk
      have hae : op attempt = .error e := by
        have h1 : attempt + 1 - 1 = attempt := by omega
        rw [h1] at hlast; exact hlast
      have hee : e0 = e := by
        rw [hae] at he0; exact (Except.error.inj he0).symm
      subst hee
      refine ⟨?_, ?_⟩
      · unfold retryAux; rw [hae]; rfl
      · unfold retryCountAux; rw [hae]; rfl
    · have hkpos : 0 < k := Nat.pos_of_ne_zero hk
      have hlast' : op ((attempt + 1) + k - 1) = .error e := by
        have h1 : (attempt + 1) + k - 1 = attempt + (k + 1) - 1 := by omega
        rw [h1]; exact hlast
      have hall' : ∀ j, attempt + 1 ≤ j → j < (attempt + 1) + k → ∃ e0, op j = .error e0 :=
        fun j h1 h2 => hall j (by omega) (by omega)
      have hrec := ih (attempt + 1) (some (normalizeToError e0)) e hkpos hlast' hall'
      refine ⟨?_, ?_⟩
      · unfold retryAux; rw [he0]; exact hrec.1
      · unfold retryCountAux; rw [he0]
        show 1 + retryCountAux op (attempt + 1) k = k + 1
        rw [hrec.2]; omega

/-- C1 (amended): `apiCallWithRetry` invokes the wrapped operation at most
`maxAttempts` times; if invocation `i` is the first to succeed it returns that
result having performed exactly `i` invocations; if all `maxAttempts`
invocations throw, it propagates the last thrown failure after the
`error instanceof Error` normalization — unchanged whenever the thrown value
is an `Error` object, but a non-`Error` thrown value is coerced to an `Error`
carrying its string rendering. -/
theorem apiCallWithRetry_contract {α : Type} (op : Nat → Except JSVal α)
    (maxAttempts i : Nat) (v : α) (e : JSVal) :
    (apiCallInvocations op maxAttempts ≤ maxAttempts) ∧
    (1 ≤ i → i ≤ maxAttempts → op i = .ok v →
      (∀ j, 1 ≤ j → j < i → ∃ e0, op j = .error e0) →
      apiCallWithRetry op maxAttempts = .ok v ∧ apiCallInvocations op maxAttempts = i) ∧
    (1 ≤ maxAttempts → op maxAttempts = .error e →
      (∀ j, 1 ≤ j → j ≤ maxAttempts → ∃ e0, op j = .error e0) →
      apiCallWithRetry op maxAttempts = .error (some (normalizeToError e)) ∧
        apiCallInvocations op maxAttempts = maxAttempts) ∧
    (∀ m, normalizeToError (JSVal.errObj m) = JSVal.errObj m) := by
  refine ⟨retryCountAux_le op maxAttempts 1, ?_, ?_, fun _ => rfl⟩
  · intro h1 h2 hok hfail
    have h := retryAux_first_success op maxAttempts 1 none i v h1 (by omega) hok
      (fun j hj1 hj2 => hfail j hj1 hj2)
    refine ⟨h.1, ?_⟩
    have := h.2
    unfold apiCallInvocations
    omega
  · intro hpos hlast hall
    have h1 : op (1 + maxAttempts - 1) = .error e := by
      have : 1 + maxAttempts - 1 = maxAttempts := by omega
      rw [this]; exact hlast
    have h := retryAux_all_fail op maxAttempts 1 none e hpos h1
      (fun j hj1 hj2 => hall j hj1 (by omega))
    exact ⟨h.1, h.2⟩

/-- Witness for `apiCallWithRetry_contract`: an operation that fails on the
first attempt and succeeds on the second returns the success value having
performed exactly 2 invocations out of the allowed 3. -/
theorem apiCallWithRetry_contract_witness :
    apiCallWithRetry
        (fun n => if n = 1 then Except.error (JSVal.errObj "boom") else Except.ok 42) 3 =
      Except.ok 42 ∧
    apiCallInvocations
        (fun n => if n = 1 then Except.error (JSVal.errObj "boom") else Except.ok 42) 3 = 2 := by
  have h := (apiCallWithRetry_contract
    (fun n => if n = 1 then Except.error (JSVal.errObj "boom") else Except.ok (42 : Nat)) 3
    2 42 (JSVal.errObj "x")).2.1
    (by omega) (by omega) rfl
    (by
      intro j hj1 hj2
      have : j = 1 := by omega
      subst this
      exact ⟨JSVal.errObj "boom", rfl⟩)
  exact h

/-- C1 counterexample: the claim "propagates the last thrown failure unchanged,
without wrapping it" fails for a non-`Error` thrown value — a rejection with
the bare string `"boom"` is re-thrown as an `Error` object wrapping that
string (`new Error(String(error))`), not as the original value. -/
theorem apiCallWithRetry_wraps_nonError :
    apiCallWithRetry (fun _ => (Except.error (JSVal.nonErr "boom") : Except JSVal Nat)) 3 =
      Except.error (some (JSVal.errObj "boom")) ∧
    JSVal.errObj "boom" ≠ JSVal.nonErr "boom" := by
  exact ⟨rfl, by decide⟩

/-! ## API clients (`src/api/airopsSession.ts`, `src/api/retellSession.ts`)

Each client wraps a `fetch` in `try/catch`.  The outcome of the underlying
network interaction is an explicit parameter: the fetch chain threw (network
error, JSON parse error, ...), returned a non-2xx status with a body text,
or returned a parsed JSON body.  For the Airops client the request also
carries a 60-second abort timer, so an `aborted` outcome is possible. -/

/-- JavaScript string truthiness for an optional JSON string field: a missing
field and the empty string are both falsy. -/
def jsTruthy : Option String → Option String
  | some s => if s = "" then none else some s
  | none => none

/-- Parsed JSON body of a `/api/process-deck` response, as inspected by
`processAiropsDeck`: `data.success`, `data.outputs?.pitch_text`,
`data.pitch_text` (read later by `handleSubmitLink` via `result.data`) and
`data.error`. -/
structure AiropsBody where
  success : Bool
  outputs_pitch_text : Option String
  pitch_text : Option String
  error : Option String
deriving DecidableEq, Repr

/-- Outcome of a fetch guarded by an `AbortController` timeout. -/
inductive TimedFetchOutcome (β : Type) where
  | aborted
  | threw (msg : String)
  | notOk (status : Nat) (bodyText : String)
  | ok (body : β)
deriving DecidableEq, Repr

/-- Outcome of a plain fetch (no abort timer). -/
inductive FetchOutcome (β : Type) where
  | threw (msg : String)
  | notOk (status : Nat) (bodyText : String)
  | ok (body : β)
deriving DecidableEq, Repr

/-- The `AiropsResponse` returned by `processAiropsDeck`. -/
structure AiropsResponse where
  success : Bool
  outputs_pitch_text : Option String := none
  data : Option AiropsBody := none
  error : Option String := none
deriving DecidableEq, Repr

/-- A value thrown inside the `try` block of `processAiropsDeck`: either the
60-second abort (`error.name === 'AbortError'`) or an `Error` message. -/
inductive Thrown where
  | abortError
  | errMsg (msg : String)
deriving DecidableEq, Repr

/-- The `try` block of `processAiropsDeck` (airopsSession.ts lines 23-64):
throws on a non-ok status, on a truthy `data.error`, and on a response
missing `success`/`outputs.pitch_text`; otherwise returns
`{success: true, outputs: data.outputs, data: data}`. -/
def processAiropsDeckTry : TimedFetchOutcome AiropsBody → Except Thrown AiropsResponse
  | .aborted => .error .abortError
  | .threw m => .error (.errMsg m)
  | .notOk status bodyText =>
    .error (.errMsg ("Backend API error: " ++ toString status ++ " - " ++ bodyText))
  | .ok body =>
    match jsTruthy body.error with
    | some e => .error (.errMsg e)
    | none =>
      if (!body.success || (jsTruthy body.outputs_pitch_text).isNone) then
        .error (.errMsg "Invalid response format from backend")
      else
        .ok { success := true, outputs_pitch_text := body.outputs_pitch_text,
              data := some body }

/-- Model of `processAiropsDeck`: the `try` block together with its `catch`, which
converts the abort into a timeout message and any other thrown error into
`{success: false, error}` — the promise always resolves. -/
def processAiropsDeck (o : TimedFetchOutcome AiropsBody) : AiropsResponse :=
  match processAiropsDeckTry o with
  | .ok r => r
  | .error .abortError =>
    { success := false,
      error := some "Processing timed out. The file may be too large or in an unsupported format." }
  | .error (.errMsg m) => { success := false, error := some m }

/-- Request of `createRetellSession`. -/
structure RetellSessionRequest where
  agent_id : String
  founder_name : String
  pitch_deck_text : String
deriving DecidableEq, Repr

/-- Parsed JSON body of a `/api/retell-session` success response. -/
structure RetellSessionBody where
  call_id : String
  access_token : String
  agent_id : String
deriving DecidableEq, Repr

/-- Response of `createRetellSession`. -/
structure RetellSessionResponse where
  call_id : String
  access_token : String
  agent_id : String
  success : Bool
  error : Option String := none
deriving DecidableEq, Repr

/-- The `try` block of `createRetellSession` (retellSession.ts lines 37-56):
throws on a non-ok status, otherwise returns `{...data, success: true}`. -/
def createRetellSessionTry (_req : RetellSessionRequest) :
    FetchOutcome RetellSessionBody → Except String RetellSessionResponse
  | .threw m => .error m
  | .notOk status bodyText =>
    .error ("Backend API error: " ++ toString status ++ " - " ++ bodyText)
  | .ok body =>
    .ok { call_id := body.call_id, access_token := body.access_token,
          agent_id := body.agent_id, success := true }

/-- Model of `createRetellSession`: `try` plus `catch`; every thrown failure resolves
as `{call_id: '', access_token: '', agent_id: request.agent_id,
success: false, error}`. -/
def createRetellSession (req : RetellSessionRequest)
    (o : FetchOutcome RetellSessionBody) : RetellSessionResponse :=
  match createRetellSessionTry req o with
  | .ok r => r
  | .error m =>
    { call_id := "", access_token := "", agent_id := req.agent_id,
      success := false, error := some m }

/-- Request of `getCallTranscript`. -/
structure TranscriptRequest where
  call_id : String
  agent_id : String
  caller_email : String
  call_duration : String
deriving DecidableEq, Repr

/-- Parsed JSON body of a `/api/get-transcript` success response. -/
structure TranscriptBody where
  transcript : String
deriving DecidableEq, Repr

/-- Response of `getCallTranscript`. -/
structure TranscriptResponse where
  transcript : String
  success : Bool
  error : Option String := none
deriving DecidableEq, Repr

/-- The `try` block of `getCallTranscript` (retellSession.ts lines 72-91):
throws on a non-ok status, otherwise returns `{...data, success: true}`. -/
def getCallTranscriptTry (_req : TranscriptRequest) :
    FetchOutcome TranscriptBody → Except String TranscriptResponse
  | .threw m => .error m
  | .notOk status bodyText =>
    .error ("Backend API error: " ++ toString status ++ " - " ++ bodyText)
  | .ok body => .ok { transcript := body.transcript, success := true }

/-- Model of `getCallTranscript`: `try` plus `catch`; every thrown failure resolves as
`{transcript: 'Session completed. Call ID: ...', success: false, error}`. -/
def getCallTranscript (req : TranscriptRequest)
    (o : FetchOutcome TranscriptBody) : TranscriptResponse :=
  match getCallTranscriptTry req o with
  | .ok r => r
  | .error m =>
    { transcript := "Session completed. Call ID: " ++ req.call_id,
      success := false, error := some m }

/-- Holds when `needle` occurs as a contiguous substring of `hay`. -/
def isContained (needle hay : String) : Bool :=
  hay.toList.tails.any (fun t => needle.toList.isPrefixOf t)

theorem isPrefixOf_self_chars (l : List Char) : l.isPrefixOf l = true := by
  induction l with
  | nil => rfl
  | cons a t ih => simp [List.isPrefixOf, ih]

theorem isContained_append_right (p n : String) : isContained n (p ++ n) = true := by
  unfold isContained
  rw [List.any_eq_true]
  refine ⟨n.toList, ?_, ?_⟩
  · rw [List.mem_tails]
    show n.data <:+ (p ++ n).data
    rw [String.data_append]
    exact List.suffix_append p.data n.data
  · exact isPrefixOf_self_chars n.toList

/-! ## Session state machine (`src/App.tsx`)

The version documented by `app_architecture.md`: state hooks
`currentState .. endTime`, refs `callTimerRef`, `retellClientRef`,
`callIdRef`, `apiCallMadeRef`, and handlers `handleSubmitLink`,
`handleCallEnded`, `resetApp`.  Refs to live resources (interval timer,
Retell client) are modelled as booleans: `true` = a handle is held. -/

/-- The `AppState` union of `App.tsx`. -/
inductive Stage where
  | landing
  | processing
  | ready
  | startingCall
  | calling
  | summary
deriving DecidableEq, Repr

/-- Model of `SessionData` of `App.tsx`. -/
structure SessionData where
  transcript : String
  duration : Nat
  questionsAsked : Nat
  topicsCovered : List String
deriving DecidableEq, Repr

/-- All session-scoped React state and refs of the `App` component.
Timestamps (`startTime`, `endTime`) are milliseconds. -/
structure AppModel where
  currentState : Stage
  driveLink : String
  processingProgress : Nat
  error : Option String
  isMuted : Bool
  callDuration : Nat
  sessionData : Option SessionData
  processedDeckData : Option AiropsResponse
  showApiResponse : Bool
  pitch_deck_text : String
  isTextExpanded : Bool
  founder_name : String
  showDisplayStep : Bool
  retellSessionData : Option RetellSessionResponse
  isOnCall : Bool
  callStartTime : Option Nat
  isStartingCall : Bool
  callTime : Nat
  startTime : Option Nat
  endTime : Option Nat
  callTimerRef : Bool
  retellClientRef : Bool
  callIdRef : Option String
  apiCallMadeRef : Bool
deriving DecidableEq, Repr

/-- The initial values of every `useState`/`useRef` hook of `App`. -/
def initialAppModel : AppModel :=
  { currentState := .landing
    driveLink := ""
    processingProgress := 0
    error := none
    isMuted := false
    callDuration := 0
    sessionData := none
    processedDeckData := none
    showApiResponse := false
    pitch_deck_text := ""
    isTextExpanded := false
    founder_name := ""
    showDisplayStep := false
    retellSessionData := none
    isOnCall := false
    callStartTime := none
    isStartingCall := false
    callTime := 0
    startTime := none
    endTime := none
    callTimerRef := false
    retellClientRef := false
    callIdRef := none
    apiCallMadeRef := false }

/-- One of the three anchored patterns of `validateGoogleDriveLink`:
the regex `^<pre>([a-zA-Z0-9-_]+)` holds iff `pre` is a prefix of the url and
at least one id character follows it. -/
def matchesDrivePattern (pre url : String) : Bool :=
  pre.data.isPrefixOf url.data &&
    match url.data.drop pre.data.length with
    | [] => false
    | c :: _ => c.isAlphanum || c = '-' || c = '_'

/-- Model of `validateGoogleDriveLink` of `App.tsx`. -/
def validateGoogleDriveLink (url : String) : Bool :=
  matchesDrivePattern "https://drive.google.com/file/d/" url ||
  matchesDrivePattern "https://docs.google.com/presentation/d/" url ||
  matchesDrivePattern "https://docs.google.com/document/d/" url

/-- JavaScript `String.prototype.trim`: strip leading and trailing
whitespace. -/
def jsTrim (s : String) : String :=
  String.mk (((s.data.dropWhile Char.isWhitespace).reverse.dropWhile
    Char.isWhitespace).reverse)

/-- The sentinel deck text installed by `handleSubmitLink` when no drive link
was provided. -/
def noDeckSentinel : String :=
  "No pitch deck provided - the AI investor will ask general startup questions."

/-- Model of `handleSubmitLink` of `App.tsx` (lines 708-771).  `o` is the outcome of
the fetch performed inside `processAiropsDeck`; `stringifyResult` stands for
`JSON.stringify` applied to the client response.  Returns the resulting state
together with the number of times the Deck Processing Client
(`processAiropsDeck`) was invoked. -/
def handleSubmitLink (s : AppModel) (o : TimedFetchOutcome AiropsBody)
    (stringifyResult : AiropsResponse → String) : AppModel × Nat :=
  if jsTrim s.founder_name = "" then
    ({ s with error := some "Please enter your name" }, 0)
  else if jsTrim s.driveLink = "" then
    ({ s with
        error := none
        pitch_deck_text := noDeckSentinel
        currentState := .ready }, 0)
  else if validateGoogleDriveLink s.driveLink = false then
    let invalidLinkMsg := "Please enter a valid Google Drive link (drive.google.com or docs.google.com)"
    ({ s with error := some invalidLinkMsg }, 0)
  else
    let s1 := { s with
                  error := none
                  currentState := Stage.processing
                  processingProgress := 0 }
    let result := processAiropsDeck o
    if (!result.success || (jsTruthy result.error).isSome) then
      let failMsg := "Processing failed: " ++ ((jsTruthy result.error).getD "Failed to process deck")
      ({ s1 with
          error := some failMsg
          currentState := Stage.landing
          processingProgress := 0 }, 1)
    else
      let extracted :=
        ((jsTruthy result.outputs_pitch_text).orElse
          (fun _ => jsTruthy (result.data.bind AiropsBody.pitch_text))).getD
          (stringifyResult result)
      ({ s1 with
          processedDeckData := some result
          pitch_deck_text := extracted
          processingProgress := 100
          currentState := Stage.ready }, 1)

/-- Agent identifier constant of `App.tsx`. -/
def agentId : String := "agent_b795ddf35c70722141b715a820"

/-- The `userEmail` constant of `App.tsx`. -/
def userEmail : String := "user@example.com"

/-- Model of `formatTime` of `App.tsx`: `mins:secs` with the seconds zero-padded. -/
def formatTime (seconds : Nat) : String :=
  toString (seconds / 60) ++ ":" ++
    (if seconds % 60 < 10 then "0" else "") ++ toString (seconds % 60)

/-- The `topicsCovered` literal used by `handleCallEnded`. -/
def defaultTopics : List String :=
  ["Customer Acquisition", "Unit Economics", "Market Size", "Competition",
   "Team Scaling", "Revenue Model"]

/-- Model of `handleCallEnded` of `App.tsx` (lines 905-973).  `now` is `Date.now()` in
milliseconds; `o` is the outcome of the transcript fetch.  Returns the
resulting state together with the number of transcript fetch attempts made
(0 or 1).  The guard check and the `apiCallMadeRef.current = true` assignment
run synchronously before the first `await`, so two arrivals of the
call-ended signal are two sequential runs of this function. -/
def handleCallEnded (s : AppModel) (now : Nat)
    (o : FetchOutcome TranscriptBody) : AppModel × Nat :=
  let s0 := { s with isOnCall := false }
  match s0.callIdRef with
  | none => ({ s0 with currentState := Stage.summary }, 0)
  | some cid =>
    if s0.apiCallMadeRef then
      ({ s0 with currentState := Stage.summary }, 0)
    else
      let execTimeSecs : Nat :=
        match s0.startTime with
        | some st => (now - st) / 1000
        | none => s0.callTime
      let s1 := { s0 with
                    endTime := some now
                    callDuration := execTimeSecs
                    apiCallMadeRef := true }
      let req : TranscriptRequest :=
        { call_id := cid
          agent_id := agentId
          caller_email := userEmail
          call_duration := formatTime execTimeSecs }
      let fallbackTranscript := "Session completed with " ++ s1.founder_name ++ ". Call ID: " ++ cid
      let s2 :=
        match apiCallWithRetry (fun _ => Except.ok (getCallTranscript req o)) 2 with
        | .ok tr =>
          let sd : SessionData :=
            { transcript := tr.transcript
              duration := execTimeSecs
              questionsAsked := 8
              topicsCovered := defaultTopics }
          { s1 with sessionData := some sd }
        | .error _ =>
          let sd : SessionData :=
            { transcript := fallbackTranscript
              duration := execTimeSecs
              questionsAsked := 8
              topicsCovered := defaultTopics }
          { s1 with sessionData := some sd }
      let s3 := if s2.callTimerRef then { s2 with callTimerRef := false } else s2
      ({ s3 with currentState := Stage.summary }, 1)

/-- Side effects of `resetApp` on the live resources. -/
structure ResetEffects where
  stopCallAttempted : Bool
  timerCleared : Bool
deriving DecidableEq, Repr

/-- Model of `resetApp` of `App.tsx` (lines 997-1037): stop the call if a client handle
lingers, clear the timer if one lingers, then reset every state hook and ref
to its initial value. -/
def resetApp (s : AppModel) : AppModel × ResetEffects :=
  ({ currentState := .landing
     driveLink := ""
     processingProgress := 0
     error := none
     isMuted := false
     callDuration := 0
     sessionData := none
     processedDeckData := none
     showApiResponse := false
     pitch_deck_text := ""
     isTextExpanded := false
     founder_name := ""
     showDisplayStep := false
     retellSessionData := none
     isOnCall := false
     callStartTime := none
     isStartingCall := false
     callTime := 0
     startTime := none
     endTime := none
     callTimerRef := false
     retellClientRef := false
     callIdRef := none
     apiCallMadeRef := false },
   { stopCallAttempted := s.retellClientRef, timerCleared := s.callTimerRef })

/-! ## Backend relay (`server` file)

Models of the response normalization of `POST /api/process-deck` and the
transcript formatting of `POST /api/get-transcript`.  A raw provider payload
is arbitrary JSON; the fields the code inspects are modelled as optional
strings, and `serialized` stands for `JSON.stringify` of the whole value. -/

/-- One element of a provider `results` array, as inspected by the
normalizer.  `serialized` models `JSON.stringify(result)`. -/
structure AiropsRawResult where
  pitch_text : Option String
  text : Option String
  content : Option String
  serialized : String
deriving DecidableEq, Repr

/-- A well-formed JSON payload returned by the Airops provider, as inspected
by the normalizer of `/api/process-deck`.  `serialized` models
`JSON.stringify(data)`. -/
structure AiropsRawPayload where
  outputs_pitch_text : Option String
  pitch_text : Option String
  text : Option String
  content : Option String
  results : Option (List AiropsRawResult)
  serialized : String
deriving DecidableEq, Repr

/-- The formatted response the relay sends back to the client. -/
structure FormattedDeckResponse where
  success : Bool
  pitch_text : String
deriving DecidableEq, Repr

/-- The response normalization of `/api/process-deck` (server lines 171-230):
five cases tried in order — `outputs.pitch_text`, `pitch_text`,
`text || content`, first element of a non-empty `results` array, and a
fallback serializing the raw payload truncated to 1000 characters.  Every
case is marked successful. -/
def processDeckNormalize (d : AiropsRawPayload) : FormattedDeckResponse :=
  match jsTruthy d.outputs_pitch_text with
  | some s => { success := true, pitch_text := s }
  | none =>
  match jsTruthy d.pitch_text with
  | some s => { success := true, pitch_text := s }
  | none =>
  match (jsTruthy d.text).orElse (fun _ => jsTruthy d.content) with
  | some s => { success := true, pitch_text := s }
  | none =>
  match d.results with
  | some (r :: _) =>
    let pitchText :=
      ((jsTruthy r.pitch_text).orElse
        (fun _ => (jsTruthy r.text).orElse (fun _ => jsTruthy r.content))).getD
        r.serialized
    { success := true, pitch_text := pitchText }
  | _ =>
    { success := true,
      pitch_text := "Processed deck content: " ++ d.serialized.take 1000 }

/-- One utterance of a provider transcript, as read by `/api/get-transcript`
(`entry.speaker`, `entry.text`). -/
structure TranscriptEntry where
  speaker : String
  text : String
deriving DecidableEq, Repr

/-- One formatted line: the provider role `agent` renders as `Investor`,
every other role as `Founder`. -/
def formatTranscriptEntry (e : TranscriptEntry) : String :=
  (if e.speaker = "agent" then "Investor" else "Founder") ++ ": " ++ e.text

/-- JavaScript `Array.prototype.join`. -/
def joinStrings (sep : String) : List String → String
  | [] => ""
  | [x] => x
  | x :: xs => x ++ sep ++ joinStrings sep xs

/-- The call metadata appended at the end of every transcript. -/
def transcriptMetadata (call_duration call_id : String) : String :=
  "\n\nCall Duration: " ++ call_duration ++ "\nCall ID: " ++ call_id

/-- The transcript formatting of `/api/get-transcript` (server lines 74-92):
map the entries to `"<Role>: <text>"` lines, join them with blank lines, and
append the call metadata; when no per-utterance data is available, a fallback
message with the same metadata. -/
def getTranscriptEndpointBody (entries : List TranscriptEntry)
    (call_duration call_id : String) : String :=
  if entries.length > 0 then
    joinStrings "\n\n" (entries.map formatTranscriptEntry) ++
      transcriptMetadata call_duration call_id
  else
    "No transcript available yet for this call. The conversation is still being processed." ++
      transcriptMetadata call_duration call_id

/-- The claim's rendering of speaker turns: the lines in their original
sequence, separated by blank lines. -/
def specRenderTurns : List TranscriptEntry → String
  | [] => ""
  | [e] => formatTranscriptEntry e
  | e :: rest => formatTranscriptEntry e ++ "\n\n" ++ specRenderTurns rest

theorem joinStrings_map_eq_specRender (entries : List TranscriptEntry) :
    joinStrings "\n\n" (entries.map formatTranscriptEntry) = specRenderTurns entries := by
  induction entries with
  | nil => rfl
  | cons e rest ih =>
    cases rest with
    | nil => rfl
    | cons e2 rest2 =>
      show formatTranscriptEntry e ++ "\n\n" ++
          joinStrings "\n\n" ((e2 :: rest2).map formatTranscriptEntry) =
        formatTranscriptEntry e ++ "\n\n" ++ specRenderTurns (e2 :: rest2)
      rw [ih]

/-! ## Claim theorems -/

theorem processing_failed_msg_ne_empty (x : String) : "Processing failed: " ++ x ≠ "" := by
  intro h
  have hd : ("Processing failed: " ++ x).data = ("" : String).data := by rw [h]
  rw [String.data_append] at hd
  have h2 := (List.append_eq_nil.mp hd).1
  exact absurd h2 (by decide)

/-- C2 (code bug): deck-processing failures are never retried.  The retry
executor only re-invokes an operation that throws, but `processAiropsDeck`
catches every failure and resolves with `{success: false}`; so wrapping it
with `maxAttempts: 3` (as `processPitchDeck` does) performs exactly one
invocation for every outcome, and a network failure surfaces after that
single attempt as an `ok`-wrapped failure response — not after 3 attempts as
claimed. -/
theorem deck_failure_not_retried :
    processAiropsDeck (TimedFetchOutcome.threw "fetch failed") =
      { success := false, error := some "fetch failed" } ∧
    (∀ o, apiCallInvocations (fun _ => Except.ok (processAiropsDeck o)) 3 = 1) ∧
    apiCallWithRetry
        (fun _ => Except.ok (processAiropsDeck (TimedFetchOutcome.threw "fetch failed"))) 3 =
      Except.ok { success := false, error := some "fetch failed" } :=
  ⟨rfl, fun _ => rfl, rfl⟩

/-- C4: a submission with a non-empty (after trim) founder name and an empty
deck link reaches the `ready` stage without invoking the Deck Processing
Client, with `pitch_deck_text` set to the non-empty sentinel string. -/
theorem empty_link_reaches_ready_with_sentinel (s : AppModel)
    (o : TimedFetchOutcome AiropsBody) (strf : AiropsResponse → String)
    (hname : ¬ (jsTrim s.founder_name = "")) (hlink : jsTrim s.driveLink = "") :
    (handleSubmitLink s o strf).1.currentState = Stage.ready ∧
    (handleSubmitLink s o strf).2 = 0 ∧
    (handleSubmitLink s o strf).1.pitch_deck_text = noDeckSentinel ∧
    noDeckSentinel ≠ "" := by
  unfold handleSubmitLink
  rw [if_neg hname, if_pos hlink]
  exact ⟨rfl, rfl, rfl, by decide⟩

/-- Witness for `empty_link_reaches_ready_with_sentinel` at founder name
`"Ana"` and empty drive link. -/
theorem empty_link_reaches_ready_with_sentinel_witness :
    (handleSubmitLink { initialAppModel with founder_name := "Ana" }
        TimedFetchOutcome.aborted (fun _ => "")).1.currentState = Stage.ready ∧
    (handleSubmitLink { initialAppModel with founder_name := "Ana" }
        TimedFetchOutcome.aborted (fun _ => "")).2 = 0 ∧
    (handleSubmitLink { initialAppModel with founder_name := "Ana" }
        TimedFetchOutcome.aborted (fun _ => "")).1.pitch_deck_text = noDeckSentinel := by
  have h := empty_link_reaches_ready_with_sentinel
    { initialAppModel with founder_name := "Ana" }
    TimedFetchOutcome.aborted (fun _ => "") (by decide) (by decide)
  exact ⟨h.1, h.2.1, h.2.2.1⟩

/-- C6: when deck processing fails, the state machine returns to `landing`
with a non-empty error message, preserving the entered founder name and deck
link unchanged. -/
theorem deck_failure_returns_to_landing (s : AppModel) (o : TimedFetchOutcome AiropsBody)
    (strf : AiropsResponse → String)
    (hname : ¬ (jsTrim s.founder_name = "")) (hlink : ¬ (jsTrim s.driveLink = ""))
    (hvalid : validateGoogleDriveLink s.driveLink = true)
    (hfail : (processAiropsDeck o).success = false) :
    (handleSubmitLink s o strf).1.currentState = Stage.landing ∧
    (∃ m, (handleSubmitLink s o strf).1.error = some m ∧ m ≠ "") ∧
    (handleSubmitLink s o strf).1.founder_name = s.founder_name ∧
    (handleSubmitLink s o strf).1.driveLink = s.driveLink := by
  have hcond : (!(processAiropsDeck o).success ||
      (jsTruthy (processAiropsDeck o).error).isSome) = true := by
    rw [hfail]; rfl
  refine ⟨?_,
    ⟨"Processing failed: " ++ ((jsTruthy (processAiropsDeck o).error).getD "Failed to process deck"),
      ?_, processing_failed_msg_ne_empty _⟩, ?_, ?_⟩ <;>
    simp [handleSubmitLink, hname, hlink, hvalid, hcond]

/-- Witness for `deck_failure_returns_to_landing`: a valid drive link whose
processing fetch throws. -/
theorem deck_failure_returns_to_landing_witness :
    (handleSubmitLink
        { initialAppModel with
            founder_name := "Ana"
            driveLink := "https://drive.google.com/file/d/abc123" }
        (TimedFetchOutcome.threw "fetch failed") (fun _ => "")).1.currentState = Stage.landing ∧
    (handleSubmitLink
        { initialAppModel with
            founder_name := "Ana"
            driveLink := "https://drive.google.com/file/d/abc123" }
        (TimedFetchOutcome.threw "fetch failed") (fun _ => "")).1.founder_name = "Ana" := by
  have h := deck_failure_returns_to_landing
    { initialAppModel with
        founder_name := "Ana"
        driveLink := "https://drive.google.com/file/d/abc123" }
    (TimedFetchOutcome.threw "fetch failed") (fun _ => "")
    (by decide) (by decide) (by decide) rfl
  exact ⟨h.1, h.2.2.1⟩

/-- C7: `resetApp` restores every session-scoped field (state hooks and refs)
to its initial value from any state, and performs the defensive cleanup:
it attempts to stop the call exactly when a client handle lingers and clears
the timer exactly when a timer handle lingers, regardless of the stage. -/
theorem resetApp_restores_initial (s : AppModel) :
    (resetApp s).1 = initialAppModel ∧
    (resetApp s).2.stopCallAttempted = s.retellClientRef ∧
    (resetApp s).2.timerCleared = s.callTimerRef :=
  ⟨rfl, rfl, rfl⟩

theorem handleCallEnded_fetches (s : AppModel) (now : Nat) (o : FetchOutcome TranscriptBody)
    (cid : String) (hid : s.callIdRef = some cid) (hg : s.apiCallMadeRef = false) :
    (handleCallEnded s now o).2 = 1 ∧
    (handleCallEnded s now o).1.apiCallMadeRef = true ∧
    (handleCallEnded s now o).1.callIdRef = some cid ∧
    (handleCallEnded s now o).1.callTimerRef = false ∧
    (handleCallEnded s now o).1.currentState = Stage.summary := by
  cases hT : s.callTimerRef <;>
    simp [handleCallEnded, hid, hg, hT, apiCallWithRetry, retryAux]

theorem handleCallEnded_skips (s : AppModel) (now : Nat) (o : FetchOutcome TranscriptBody)
    (cid : String) (hid : s.callIdRef = some cid) (hg : s.apiCallMadeRef = true) :
    (handleCallEnded s now o).2 = 0 ∧
    (handleCallEnded s now o).1.currentState = Stage.summary := by
  simp [handleCallEnded, hid, hg]

theorem handleCallEnded_always_summary (s : AppModel) (now : Nat)
    (o : FetchOutcome TranscriptBody) :
    (handleCallEnded s now o).1.currentState = Stage.summary := by
  unfold handleCallEnded
  cases hid : s.callIdRef with
  | none => simp [hid]
  | some cid =>
    cases hg : s.apiCallMadeRef with
    | true => simp [hid, hg]
    | false => simp [hid, hg]

/-- C3: the `apiCallMadeRef` guard makes the finalize sequence idempotent —
when a user end-call action and a provider disconnect both funnel into
`handleCallEnded` (the user path only stops the call and lets the
`call_ended` event do the rest), the first run performs the single transcript
fetch, stops the timer and reaches `summary`, and the second run performs no
fetch: exactly one transcript fetch attempt per call. -/
theorem finalize_runs_exactly_once (s : AppModel) (now1 now2 : Nat)
    (o1 o2 : FetchOutcome TranscriptBody) (cid : String)
    (hid : s.callIdRef = some cid) (hg : s.apiCallMadeRef = false) :
    (handleCallEnded s now1 o1).2 = 1 ∧
    (handleCallEnded (handleCallEnded s now1 o1).1 now2 o2).2 = 0 ∧
    (handleCallEnded s now1 o1).2 +
      (handleCallEnded (handleCallEnded s now1 o1).1 now2 o2).2 = 1 ∧
    (handleCallEnded s now1 o1).1.callTimerRef = false ∧
    (handleCallEnded (handleCallEnded s now1 o1).1 now2 o2).1.currentState = Stage.summary := by
  have h1 := handleCallEnded_fetches s now1 o1 cid hid hg
  have h2 := handleCallEnded_skips (handleCallEnded s now1 o1).1 now2 o2 cid
    h1.2.2.1 h1.2.1
  refine ⟨h1.1, h2.1, ?_, h1.2.2.2.1, h2.2⟩
  rw [h1.1, h2.1]

/-- Witness for `finalize_runs_exactly_once`: a live call with id `call_1`
receives two end signals; only the first fetches the transcript. -/
theorem finalize_runs_exactly_once_witness :
    (handleCallEnded { initialAppModel with callIdRef := some "call_1" } 5000
      (FetchOutcome.threw "x")).2 = 1 ∧
    (handleCallEnded
      (handleCallEnded { initialAppModel with callIdRef := some "call_1" } 5000
        (FetchOutcome.threw "x")).1 6000 (FetchOutcome.threw "y")).2 = 0 := by
  have h := finalize_runs_exactly_once
    { initialAppModel with callIdRef := some "call_1" } 5000 6000
    (FetchOutcome.threw "x") (FetchOutcome.threw "y") "call_1" rfl rfl
  exact ⟨h.1, h.2.1⟩

/-- C5 counterexample: on a provider failure, the synthetic transcript
returned by `getCallTranscript` embeds the call identifier but not the call
duration — for duration `"5:00"` the fallback string contains no occurrence
of it, refuting "embedding both the call identifier and the call duration".
-/
theorem getCallTranscript_fallback_omits_duration :
    getCallTranscript
        { call_id := "call_123", agent_id := "a1", caller_email := "u@example.com",
          call_duration := "5:00" } (FetchOutcome.threw "network down") =
      { transcript := "Session completed. Call ID: call_123", success := false,
        error := some "network down" } ∧
    isContained "5:00" "Session completed. Call ID: call_123" = false := by
  exact ⟨rfl, by decide⟩

/-- C5 (amended): on every provider failure, `getCallTranscript` resolves
(never raises) with `success := false` and the synthetic transcript
`"Session completed. Call ID: <id>"`, which embeds the call identifier (but
not the duration); and `handleCallEnded` still reaches the `summary` stage
for every fetch outcome. -/
theorem transcript_fetch_degrades_gracefully (req : TranscriptRequest) (m : String)
    (o : FetchOutcome TranscriptBody)
    (hfail : getCallTranscriptTry req o = Except.error m) :
    (getCallTranscript req o).success = false ∧
    (getCallTranscript req o).error = some m ∧
    (getCallTranscript req o).transcript = "Session completed. Call ID: " ++ req.call_id ∧
    isContained req.call_id (getCallTranscript req o).transcript = true ∧
    (∀ s now, (handleCallEnded s now o).1.currentState = Stage.summary) := by
  have hres : getCallTranscript req o =
      { transcript := "Session completed. Call ID: " ++ req.call_id,
        success := false, error := some m } := by
    unfold getCallTranscript
    rw [hfail]
  refine ⟨by rw [hres], by rw [hres], by rw [hres], ?_,
    fun s now => handleCallEnded_always_summary s now o⟩
  rw [hres]
  exact isContained_append_right "Session completed. Call ID: " req.call_id

/-- Witness for `transcript_fetch_degrades_gracefully` at a thrown network
failure. -/
theorem transcript_fetch_degrades_gracefully_witness :
    (getCallTranscript
        { call_id := "c9", agent_id := "a1", caller_email := "u@example.com",
          call_duration := "0:07" } (FetchOutcome.threw "boom")).success = false ∧
    (getCallTranscript
        { call_id := "c9", agent_id := "a1", caller_email := "u@example.com",
          call_duration := "0:07" } (FetchOutcome.threw "boom")).transcript =
      "Session completed. Call ID: " ++ "c9" := by
  have h := transcript_fetch_degrades_gracefully
    { call_id := "c9", agent_id := "a1", caller_email := "u@example.com",
      call_duration := "0:07" } "boom" (FetchOutcome.threw "boom") rfl
  exact ⟨h.1, h.2.2.1⟩

/-- C8: the `/api/process-deck` normalizer tries the known payload shapes in
a fixed priority order — `outputs.pitch_text`, then `pitch_text`, then
`text || content`, then the first element of a non-empty `results` list —
returning the first present (truthy) string; when no shape matches it falls
back to a truncated serialization of the whole raw payload; and every
well-formed payload yields `success = true`, never a hard failure. -/
theorem processDeck_normalization_priority :
    (∀ d, (processDeckNormalize d).success = true) ∧
    (∀ d s, jsTruthy d.outputs_pitch_text = some s →
      (processDeckNormalize d).pitch_text = s) ∧
    (∀ d s, jsTruthy d.outputs_pitch_text = none → jsTruthy d.pitch_text = some s →
      (processDeckNormalize d).pitch_text = s) ∧
    (∀ d s, jsTruthy d.outputs_pitch_text = none → jsTruthy d.pitch_text = none →
      (jsTruthy d.text).orElse (fun _ => jsTruthy d.content) = some s →
      (processDeckNormalize d).pitch_text = s) ∧
    (∀ d r rest, jsTruthy d.outputs_pitch_text = none → jsTruthy d.pitch_text = none →
      (jsTruthy d.text).orElse (fun _ => jsTruthy d.content) = none →
      d.results = some (r :: rest) →
      (processDeckNormalize d).pitch_text =
        ((jsTruthy r.pitch_text).orElse
          (fun _ => (jsTruthy r.text).orElse (fun _ => jsTruthy r.content))).getD
          r.serialized) ∧
    (∀ d, jsTruthy d.outputs_pitch_text = none → jsTruthy d.pitch_text = none →
      (jsTruthy d.text).orElse (fun _ => jsTruthy d.content) = none →
      (d.results = none ∨ d.results = some []) →
      (processDeckNormalize d).pitch_text =
        "Processed deck content: " ++ d.serialized.take 1000) := by
  refine ⟨?_, ?_, ?_, ?_, ?_, ?_⟩
  · intro d
    unfold processDeckNormalize
    repeat' split
    all_goals rfl
  · intro d s h1
    unfold processDeckNormalize
    rw [h1]
  · intro d s h1 h2
    unfold processDeckNormalize
    rw [h1, h2]
  · intro d s h1 h2 h3
    unfold processDeckNormalize
    rw [h1, h2, h3]
  · intro d r rest h1 h2 h3 h4
    unfold processDeckNormalize
    rw [h1, h2, h3, h4]
  · intro d h1 h2 h3 h4
    unfold processDeckNormalize
    rw [h1, h2, h3]
    rcases h4 with h4 | h4 <;> rw [h4]

/-- Witness for `processDeck_normalization_priority`: a payload carrying only
`pitch_text` normalizes to it, and a payload with no recognized shape falls
back to the truncated serialization, both successful. -/
theorem processDeck_normalization_priority_witness :
    (processDeckNormalize
        { outputs_pitch_text := none, pitch_text := some "the deck",
          text := none, content := none, results := none,
          serialized := "raw" }).success = true ∧
    (processDeckNormalize
        { outputs_pitch_text := none, pitch_text := some "the deck",
          text := none, content := none, results := none,
          serialized := "raw" }).pitch_text = "the deck" ∧
    (processDeckNormalize
        { outputs_pitch_text := none, pitch_text := none,
          text := none, content := none, results := none,
          serialized := "raw" }).pitch_text =
      "Processed deck content: " ++ ("raw" : String).take 1000 := by
  refine ⟨processDeck_normalization_priority.1 _,
    processDeck_normalization_priority.2.2.1
      { outputs_pitch_text := none, pitch_text := some "the deck",
        text := none, content := none, results := none, serialized := "raw" }
      "the deck" rfl rfl,
    processDeck_normalization_priority.2.2.2.2.2
      { outputs_pitch_text := none, pitch_text := none,
        text := none, content := none, results := none, serialized := "raw" }
      rfl rfl rfl (Or.inl rfl)⟩

/-- C9: the `/api/get-transcript` formatter joins the speaker turns in their
original sequence as `"<Role>: <text>"` lines separated by blank lines,
renders the provider role `agent` as `Investor` and every other role as
`Founder`, and appends the call duration and identifier at the end; in
particular turns `[agent: "Hi", user: "Hello"]` render as
`"Investor: Hi\n\nFounder: Hello"` followed by the metadata. -/
theorem transcript_formatting (entries : List TranscriptEntry) (d id : String)
    (hne : entries ≠ []) :
    getTranscriptEndpointBody entries d id =
      specRenderTurns entries ++ transcriptMetadata d id ∧
    (∀ t, formatTranscriptEntry { speaker := "agent", text := t } = "Investor: " ++ t) ∧
    (∀ r t, r ≠ "agent" →
      formatTranscriptEntry { speaker := r, text := t } = "Founder: " ++ t) ∧
    getTranscriptEndpointBody
        [{ speaker := "agent", text := "Hi" }, { speaker := "user", text := "Hello" }]
        d id =
      "Investor: Hi\n\nFounder: Hello" ++ transcriptMetadata d id := by
  refine ⟨?_, ?_, ?_, ?_⟩
  · unfold getTranscriptEndpointBody
    rw [if_pos (by exact Nat.pos_of_ne_zero (fun h => hne (List.length_eq_zero.mp h))),
      joinStrings_map_eq_specRender]
  · intro t
    unfold formatTranscriptEntry
    rw [if_pos rfl]
    rfl
  · intro r t hr
    unfold formatTranscriptEntry
    rw [if_neg hr]
    rfl
  · rfl

/-- Witness for `transcript_formatting` at the two-turn example. -/
theorem transcript_formatting_witness :
    getTranscriptEndpointBody
        [{ speaker := "agent", text := "Hi" }, { speaker := "user", text := "Hello" }]
        "1:00" "c7" =
      "Investor: Hi\n\nFounder: Hello" ++ transcriptMetadata "1:00" "c7" := by
  exact (transcript_formatting
    [{ speaker := "agent", text := "Hi" }, { speaker := "user", text := "Hello" }]
    "1:00" "c7" (by decide)).2.2.2

theorem processAiropsDeckTry_ok_success (o : TimedFetchOutcome AiropsBody)
    (r : AiropsResponse) (h : processAiropsDeckTry o = Except.ok r) :
    r.success = true := by
  cases o with
  | aborted => exact absurd h (by simp [processAiropsDeckTry])
  | threw m => exact absurd h (by simp [processAiropsDeckTry])
  | notOk st b => exact absurd h (by simp [processAiropsDeckTry])
  | ok body =>
    simp only [processAiropsDeckTry] at h
    split at h
    · cases h
    · split at h
      · cases h
      · injection h with h2
        rw [← h2]

/-- C10: the three API clients resolve every internal failure instead of
rejecting.  A failure of `processAiropsDeck` (thrown fetch error, non-ok
status, 60-second abort, truthy error body, or invalid structure — exactly
when its try-block throws) resolves with `success = false` and an error
message; `createRetellSession` and `getCallTranscript` map every thrown
failure to their fixed `success = false` fallback objects; consequently
wrapping any of them in the retry executor yields an immediate `ok` even for
failures — a caller detecting failure via thrown exceptions observes
success. -/
theorem api_clients_resolve_failures :
    (∀ o, ((processAiropsDeck o).success = false ↔ (processAiropsDeckTry o).isOk = false)) ∧
    (∀ o m, processAiropsDeckTry o = Except.error (Thrown.errMsg m) →
      processAiropsDeck o = { success := false, error := some m }) ∧
    (processAiropsDeck TimedFetchOutcome.aborted =
      { success := false,
        error := some "Processing timed out. The file may be too large or in an unsupported format." }) ∧
    (∀ req o m, createRetellSessionTry req o = Except.error m →
      createRetellSession req o =
        { call_id := "", access_token := "", agent_id := req.agent_id,
          success := false, error := some m }) ∧
    (∀ req o m, getCallTranscriptTry req o = Except.error m →
      getCallTranscript req o =
        { transcript := "Session completed. Call ID: " ++ req.call_id,
          success := false, error := some m }) ∧
    (∀ o n, 1 ≤ n → apiCallWithRetry (fun _ => Except.ok (processAiropsDeck o)) n =
      Except.ok (processAiropsDeck o)) ∧
    (∀ req o n, 1 ≤ n →
      apiCallWithRetry (fun _ => Except.ok (createRetellSession req o)) n =
        Except.ok (createRetellSession req o)) ∧
    (∀ req o n, 1 ≤ n →
      apiCallWithRetry (fun _ => Except.ok (getCallTranscript req o)) n =
        Except.ok (getCallTranscript req o)) := by
  refine ⟨?_, ?_, rfl, ?_, ?_, ?_, ?_, ?_⟩
  · intro o
    cases h : processAiropsDeckTry o with
    | ok r =>
      have hs := processAiropsDeckTry_ok_success o r h
      unfold processAiropsDeck
      rw [h, hs]
      simp [Except.isOk, Except.toBool]
    | error e =>
      unfold processAiropsDeck
      rw [h]
      cases e <;> simp [Except.isOk, Except.toBool]
  · intro o m h
    unfold processAiropsDeck
    rw [h]
  · intro req o m h
    unfold createRetellSession
    rw [h]
  · intro req o m h
    unfold getCallTranscript
    rw [h]
  · intro o n hn
    match n, hn with
    | (k + 1), _ => rfl
  · intro req o n hn
    match n, hn with
    | (k + 1), _ => rfl
  · intro req o n hn
    match n, hn with
    | (k + 1), _ => rfl

/-- Witness for `api_clients_resolve_failures`: a thrown network failure in
`createRetellSession` resolves as a `success = false` response. -/
theorem api_clients_resolve_failures_witness :
    createRetellSession
        { agent_id := "a1", founder_name := "Ana", pitch_deck_text := "t" }
        (FetchOutcome.threw "boom") =
      { call_id := "", access_token := "", agent_id := "a1", success := false,
        error := some "boom" } := by
  exact api_clients_resolve_failures.2.2.2.1
    { agent_id := "a1", founder_name := "Ana", pitch_deck_text := "t" }
    (FetchOutcome.threw "boom") "boom" rfl

end PitchApp
